import Mathlib

/-!
# Feedly client: a shallow embedding of `FeedlyClient.go`

Go strings are byte sequences.  They are embedded as lists of bytes, and a Go
string literal (all literals of the source are ASCII) is written `lit "..."`.
The standard-library functions the source calls (`fmt.Sprintf` with `%s`,
`net/url.Values.Encode`, `strconv.FormatBool`, `strconv.FormatInt`,
`net/http.Header.Set`) are embedded after their Go implementation.
-/

namespace Feedly

/-- A byte of a Go string. -/
abbrev Byte := Fin 256

/-- A Go `string`: a finite sequence of bytes. -/
abbrev GoString := List Byte

/-- The byte of an ASCII character literal such as `'a'`. -/
def ch (c : Char) : Byte := Fin.ofNat c.toNat

/-- The Go string of an ASCII string literal. -/
def lit (s : String) : GoString := s.data.map ch

/-! ## The client structure and its constructor -/

/-- Go `map[string]string`, as an association list read by first match. -/
abbrev StringMap := List (GoString × GoString)

/-- The struct `FeedlyClient` (source lines 13-21). -/
structure FeedlyClient where
  ClientID : GoString
  ClientSecret : GoString
  Sandbox : Bool
  ServiceHost : GoString
  AdditionalHeaders : StringMap
  Token : GoString
  Secret : GoString
deriving DecidableEq, Repr

/-- A dynamically typed value of the options map (`interface{}`): the three
dynamic types the constructor asserts, and `other` for every other dynamic type. -/
inductive OptionValue where
  | str (s : GoString)
  | bool (v : Bool)
  | headers (m : StringMap)
  | other
deriving DecidableEq, Repr

/-- Go `map[string]interface{}`; a missing key reads as the nil interface. -/
abbrev Options := List (GoString × OptionValue)

/-- The map read `options[key]`. -/
def Options.get (options : Options) (key : GoString) : Option OptionValue :=
  (options.find? (fun kv => kv.1 == key)).map Prod.snd

/-- The type assertion `options[key].(string)`; `none` is the run-time panic. -/
def assertString (options : Options) (key : GoString) : Option GoString :=
  match options.get key with
  | some (.str s) => some s
  | _ => none

/-- The type assertion `options[key].(bool)`; `none` is the run-time panic. -/
def assertBool (options : Options) (key : GoString) : Option Bool :=
  match options.get key with
  | some (.bool v) => some v
  | _ => none

/-- The type assertion `options[key].(map[string]string)`; `none` is the run-time panic. -/
def assertHeaders (options : Options) (key : GoString) : Option StringMap :=
  match options.get key with
  | some (.headers m) => some m
  | _ => none

/-- The constructor `NewFeedlyClient` (source lines 24-41).  The result is `none`
when one of the six type assertions panics. -/
def NewFeedlyClient (options : Options) : Option FeedlyClient := do
  let clientID ← assertString options (lit "client_id")
  let clientSecret ← assertString options (lit "client_secret")
  let sandbox ← assertBool options (lit "sandbox")
  let additionalHeaders ← assertHeaders options (lit "additional_headers")
  let token ← assertString options (lit "token")
  let secret ← assertString options (lit "secret")
  let client : FeedlyClient :=
    { ClientID := clientID
      ClientSecret := clientSecret
      Sandbox := sandbox
      ServiceHost := []
      AdditionalHeaders := additionalHeaders
      Token := token
      Secret := secret }
  if client.Sandbox then
    some { client with ServiceHost := lit "sandbox.feedly.com" }
  else
    some { client with ServiceHost := lit "cloud.feedly.com" }

/-- The helper `getEndpoint` (source lines 193-195). -/
def getEndpoint (client : FeedlyClient) (path : GoString) : GoString :=
  lit "https://" ++ client.ServiceHost ++ lit "/" ++ path

/-- The method `GetCodeURL` (source lines 44-51): `fmt.Sprintf` with five `%s`
verbs, each of which writes its string argument unchanged. -/
def GetCodeURL (client : FeedlyClient) (callbackURL : GoString) : GoString :=
  let scope := lit "https://cloud.feedly.com/subscriptions"
  let responseType := lit "code"
  let endpoint := getEndpoint client (lit "v3/auth/auth")
  let requestURL := endpoint ++ lit "?client_id=" ++ client.ClientID ++ lit "&redirect_uri=" ++
    callbackURL ++ lit "&scope=" ++ scope ++ lit "&response_type=" ++ responseType
  requestURL

/-! ## Standard-library string functions used by the source -/

/-- The function `strconv.FormatBool`. -/
def FormatBool (v : Bool) : GoString :=
  if v then lit "true" else lit "false"

/-- The decimal digit byte `'0' + d`. -/
def digitByte (d : Nat) : Byte := Fin.ofNat (48 + d)

/-- The digit loop of `strconv.formatBits` at base 10: the last digit is `u % 10`,
the digits before it are those of `u / 10`, and a value below ten is one digit. -/
def formatBits (u : Nat) : GoString :=
  if u < 10 then [digitByte u] else formatBits (u / 10) ++ [digitByte (u % 10)]
termination_by u
decreasing_by omega

/-- The function `strconv.FormatInt(i, 10)`: a negative value is written as `-`
followed by the digits of its magnitude. -/
def FormatInt (i : Int) : GoString :=
  if i < 0 then ch '-' :: formatBits (-i).toNat else formatBits i.toNat

/-- The table `upperhex` of `net/url`. -/
def upperhex : GoString := lit "0123456789ABCDEF"

/-- The function `shouldEscape(c, encodeQueryComponent)` of `net/url`: only the
unreserved bytes (letters, digits, `-`, `_`, `.`, `~`) are left unescaped. -/
def shouldEscape (c : Byte) : Bool :=
  if (ch 'a' ≤ c && c ≤ ch 'z') || (ch 'A' ≤ c && c ≤ ch 'Z') || (ch '0' ≤ c && c ≤ ch '9') then
    false
  else if c == ch '-' || c == ch '_' || c == ch '.' || c == ch '~' then
    false
  else
    true

/-- One step of the output loop of `escape(s, encodeQueryComponent)`. -/
def escapeByte (c : Byte) : GoString :=
  if c == ch ' ' then [ch '+']
  else if shouldEscape c then
    [ch '%', upperhex.getD (c.val / 16) 0, upperhex.getD (c.val % 16) 0]
  else [c]

/-- The function `url.QueryEscape`. -/
def QueryEscape (s : GoString) : GoString :=
  s.flatMap escapeByte

/-- Go string comparison `a < b`: lexicographic on bytes. -/
def strLess : GoString → GoString → Bool
  | [], [] => false
  | [], _ :: _ => true
  | _ :: _, [] => false
  | a :: as, b :: bs => if a < b then true else if b < a then false else strLess as bs

/-- Insertion of a string into a sorted list of strings. -/
def insertString (k : GoString) : List GoString → List GoString
  | [] => [k]
  | x :: xs => if strLess x k then x :: insertString k xs else k :: x :: xs

/-- The call `slices.Sort(keys)` on strings (the sorted order of distinct keys
does not depend on the sorting algorithm). -/
def sortStrings (keys : List GoString) : List GoString :=
  keys.foldr insertString []

/-- Go `url.Values`, a `map[string][]string`, as an association list read by
first match. -/
abbrev Values := List (GoString × List GoString)

/-- The keys of the map, each once. -/
def Values.keys (v : Values) : List GoString :=
  (v.map Prod.fst).eraseDups

/-- The map read `v[k]`; a missing key reads as the nil slice. -/
def Values.get (v : Values) (k : GoString) : List GoString :=
  match v.find? (fun kv => kv.1 == k) with
  | some kv => kv.2
  | none => []

/-- The method `url.Values.Encode`: keys in sorted order, each value written as
`key=value` with both sides query-escaped, entries joined by `&`. -/
def Values.Encode (v : Values) : GoString :=
  (sortStrings v.keys).foldl
    (fun buf k =>
      let vs := v.get k
      let keyEscaped := QueryEscape k
      vs.foldl
        (fun buf val =>
          (if buf.length > 0 then buf ++ [ch '&'] else buf) ++ keyEscaped ++ [ch '='] ++
            QueryEscape val)
        buf)
    []

/-! ## Requests, headers and the HTTP layer -/

/-- Go `http.Header`, a `map[string][]string`, as an association list read by
first match. -/
abbrev Header := List (GoString × List GoString)

/-- The function `validHeaderFieldByte` of `net/textproto`: the token bytes of RFC 7230. -/
def validHeaderFieldByte (c : Byte) : Bool :=
  (ch '0' ≤ c && c ≤ ch '9') || (ch 'a' ≤ c && c ≤ ch 'z') || (ch 'A' ≤ c && c ≤ ch 'Z') ||
    (lit "!#$%&'*+-.^_`|~").contains c

/-- The case loop of `canonicalMIMEHeaderKey`: upper case at the start and after
each dash, lower case elsewhere. -/
def canonicalLoop : Bool → GoString → GoString
  | _, [] => []
  | upper, c :: rest =>
    let c :=
      if upper && ch 'a' ≤ c && c ≤ ch 'z' then c - 32
      else if !upper && ch 'A' ≤ c && c ≤ ch 'Z' then c + 32
      else c
    c :: canonicalLoop (c == ch '-') rest

/-- The function `textproto.CanonicalMIMEHeaderKey`: a key with a byte that is not
a token byte is returned unchanged. -/
def CanonicalMIMEHeaderKey (s : GoString) : GoString :=
  if s.all validHeaderFieldByte then canonicalLoop true s else s

/-- The method `Header.Set`: the entry of the canonical key is replaced by the
single value. -/
def Header.Set (h : Header) (key value : GoString) : Header :=
  let k := CanonicalMIMEHeaderKey key
  (k, [value]) :: h.filter (fun kv => kv.1 != k)

/-- The map read `h[CanonicalMIMEHeaderKey(key)]` (as `Header.Values` does);
`none` when the header is absent. -/
def Header.lookup (h : Header) (key : GoString) : Option (List GoString) :=
  (h.find? (fun kv => kv.1 == CanonicalMIMEHeaderKey key)).map Prod.snd

/-- A value handed to `json.Marshal` inside a parameter map. -/
inductive JsonParam where
  | str (s : GoString)
  | strs (l : List GoString)
deriving DecidableEq, Repr

/-- The body handed to the request: none, an encoded form, or the map handed
to `json.Marshal` (the marshalled bytes are not modelled). -/
inductive Body where
  | none
  | form (data : GoString)
  | json (params : List (GoString × JsonParam))
deriving DecidableEq, Repr

/-- The fields of `http.Request` the client sets.  `URL` is the string handed to
`http.NewRequest`. -/
structure Request where
  Method : GoString
  URL : GoString
  Header : Header
  Body : Body
deriving DecidableEq, Repr

/-- The fields of `http.Response` the client reads: `Body` is the bytes read
from `res.Body`. -/
structure Response where
  StatusCode : Nat
  Body : GoString
deriving DecidableEq, Repr

/-- A non-nil Go `error` value. -/
structure Error where
  msg : GoString
deriving DecidableEq, Repr

/-- The outcome `(res, err)` of `http.Client.Do`: a response with a nil error, or
a non-nil error (with which a response may come, as after a failed redirect). -/
inductive DoResult where
  | ok (res : Response)
  | fail (res : Option Response) (err : Error)
deriving DecidableEq, Repr

/-- A JSON value decoded into `interface{}`. -/
inductive Json where
  | null
  | bool (v : Bool)
  | number (text : GoString)
  | string (s : GoString)
  | array (items : List Json)
  | object (fields : List (GoString × Json))

/-- Go `map[string]interface{}` as filled by the JSON decoder. -/
abbrev JsonObject := List (GoString × Json)

/-- The effect of `json.NewDecoder(r).Decode(&result)` on a nil `result`: the
value left in `result` (nil, or a possibly partial value) and the returned error. -/
structure Decoded (α : Type) where
  result : Option α
  err : Option Error

/-- The environment of the client: URL parsing, the HTTP layer and the JSON decoder. -/
structure HTTP where
  /-- The error of `url.Parse` inside `http.NewRequest`, `none` when the URL parses. -/
  parseURL : GoString → Option Error
  /-- The call `http.DefaultClient.Do(req)`, given the requests issued before it. -/
  Do : List Request → Request → DoResult
  /-- Decoding of a body into `map[string]interface{}`. -/
  decodeObject : GoString → Decoded JsonObject
  /-- Decoding of a body into `[]map[string]interface{}`. -/
  decodeObjects : GoString → Decoded (List JsonObject)

/-- The requests handed to the HTTP layer so far, oldest first. -/
abbrev Log := List Request

/-- The function `http.NewRequest` for the methods GET, POST and PUT: an error
when the URL does not parse, else a request with an empty header. -/
def NewRequest (http : HTTP) (method url : GoString) (body : Body) : Except Error Request :=
  match http.parseURL url with
  | some err => .error err
  | none => .ok { Method := method, URL := url, Header := [], Body := body }

/-- One call of the HTTP layer: the request is recorded in the log. -/
def HTTP.send (http : HTTP) (req : Request) (log : Log) : DoResult × Log :=
  (http.Do log req, log ++ [req])

/-- The loop `for key, value := range headers { req.Header.Set(key, value) }`. -/
def setHeaders (req : Request) (headers : StringMap) : Request :=
  headers.foldl (fun r kv => { r with Header := r.Header.Set kv.1 kv.2 }) req

/-! ## The operations of the client

Every operation takes the environment and the log of requests issued so far and
returns its Go results together with the new log; `none` is a run-time panic
(`req.Header.Set` on the nil request that `http.NewRequest` returns with an
error, which the source discards). -/

/-- The form parameters built by `GetAccessToken` (source lines 55-61). -/
def GetAccessToken.params (client : FeedlyClient) (redirectURI code : GoString) : Values :=
  [ (lit "client_id", [client.ClientID]),
    (lit "client_secret", [client.ClientSecret]),
    (lit "grant_type", [lit "authorization_code"]),
    (lit "redirect_uri", [redirectURI]),
    (lit "code", [code]) ]

/-- The form parameters built by `RefreshAccessToken` (source lines 74-79). -/
def RefreshAccessToken.params (client : FeedlyClient) (refreshToken : GoString) : Values :=
  [ (lit "refresh_token", [refreshToken]),
    (lit "client_id", [client.ClientID]),
    (lit "client_secret", [client.ClientSecret]),
    (lit "grant_type", [lit "refresh_token"]) ]

/-- The request URL of `GetAccessToken` (source line 62). -/
def GetAccessToken.requestURL (client : FeedlyClient) : GoString :=
  getEndpoint client (lit "v3/auth/token")

/-- The request URL of `RefreshAccessToken` (source line 80). -/
def RefreshAccessToken.requestURL (client : FeedlyClient) : GoString :=
  getEndpoint client (lit "v3/auth/token")

/-- The request that `http.PostForm(url, data)` builds: a POST of the encoded
form with the form content type; an error when the URL does not parse. -/
def PostForm.request (http : HTTP) (url : GoString) (data : Values) : Except Error Request :=
  match NewRequest http (lit "POST") url (.form data.Encode) with
  | .error err => .error err
  | .ok req =>
    .ok { req with
      Header := req.Header.Set (lit "Content-Type") (lit "application/x-www-form-urlencoded") }

/-- The function `http.PostForm`: the request is built and handed to the HTTP
layer once; an unparsable URL is an error without a call. -/
def PostForm (http : HTTP) (url : GoString) (data : Values) (log : Log) : DoResult × Log :=
  match PostForm.request http url data with
  | .error err => (.fail none err, log)
  | .ok req => http.send req log

/-- The method `GetAccessToken` (source lines 54-70). -/
def GetAccessToken (http : HTTP) (client : FeedlyClient) (redirectURI code : GoString)
    (log : Log) : (Option JsonObject × Option Error) × Log :=
  let params := GetAccessToken.params client redirectURI code
  let requestURL := GetAccessToken.requestURL client
  match PostForm http requestURL params log with
  | (.fail _ err, log) => ((none, some err), log)
  | (.ok res, log) =>
    let result := (http.decodeObject res.Body).result
    ((result, none), log)

/-- The method `RefreshAccessToken` (source lines 73-88). -/
def RefreshAccessToken (http : HTTP) (client : FeedlyClient) (refreshToken : GoString)
    (log : Log) : (Option JsonObject × Option Error) × Log :=
  let params := RefreshAccessToken.params client refreshToken
  let requestURL := RefreshAccessToken.requestURL client
  match PostForm http requestURL params log with
  | (.fail _ err, log) => ((none, some err), log)
  | (.ok res, log) =>
    let result := (http.decodeObject res.Body).result
    ((result, none), log)

/-- The header map literal of the three GET operations (source lines 92-94,
111-113, 130-132). -/
def authHeaders (accessToken : GoString) : StringMap :=
  [ (lit "Authorization", lit "OAuth " ++ accessToken) ]

/-- The header map literal of the two JSON operations (source lines 154-157,
175-178). -/
def jsonHeaders (accessToken : GoString) : StringMap :=
  [ (lit "content-type", lit "application/json"),
    (lit "Authorization", lit "OAuth " ++ accessToken) ]

/-- The statements `req, _ := http.NewRequest(method, url, body)` followed by the
header loop: the request that is handed to `http.DefaultClient.Do`, or `none`
when the request is nil and the header loop panics. -/
def buildRequest (http : HTTP) (method url : GoString) (body : Body) (headers : StringMap) :
    Option Request :=
  match NewRequest http method url body with
  | .error _ => none
  | .ok req => some (setHeaders req headers)

/-- The request URL of `GetUserProfile` (source line 95). -/
def GetUserProfile.requestURL (client : FeedlyClient) : GoString :=
  getEndpoint client (lit "v3/user")

/-- The request built by `GetUserProfile` (source lines 92-99). -/
def GetUserProfile.request (http : HTTP) (client : FeedlyClient) (accessToken : GoString) :
    Option Request :=
  buildRequest http (lit "GET") (GetUserProfile.requestURL client) .none (authHeaders accessToken)

/-- The method `GetUserProfile` (source lines 91-107). -/
def GetUserProfile (http : HTTP) (client : FeedlyClient) (accessToken : GoString) (log : Log) :
    Option ((Option JsonObject × Option Error) × Log) :=
  match GetUserProfile.request http client accessToken with
  | none => none
  | some req =>
    match http.send req log with
    | (.fail _ err, log) => some ((none, some err), log)
    | (.ok res, log) =>
      let result := (http.decodeObject res.Body).result
      some ((result, none), log)

/-- The request URL of `GetUserSubscriptions` (source line 114). -/
def GetUserSubscriptions.requestURL (client : FeedlyClient) : GoString :=
  getEndpoint client (lit "v3/subscriptions")

/-- The request built by `GetUserSubscriptions` (source lines 111-118). -/
def GetUserSubscriptions.request (http : HTTP) (client : FeedlyClient) (accessToken : GoString) :
    Option Request :=
  buildRequest http (lit "GET") (GetUserSubscriptions.requestURL client) .none
    (authHeaders accessToken)

/-- The method `GetUserSubscriptions` (source lines 110-126). -/
def GetUserSubscriptions (http : HTTP) (client : FeedlyClient) (accessToken : GoString)
    (log : Log) : Option ((Option (List JsonObject) × Option Error) × Log) :=
  match GetUserSubscriptions.request http client accessToken with
  | none => none
  | some req =>
    match http.send req log with
    | (.fail _ err, log) => some ((none, some err), log)
    | (.ok res, log) =>
      let result := (http.decodeObjects res.Body).result
      some ((result, none), log)

/-- The query parameters built by `GetFeedContent` (source lines 133-137). -/
def GetFeedContent.params (streamID : GoString) (unreadOnly : Bool) (newerThan : Int) : Values :=
  [ (lit "streamId", [streamID]),
    (lit "unreadOnly", [FormatBool unreadOnly]),
    (lit "newerThan", [FormatInt newerThan]) ]

/-- The request URL of `GetFeedContent` (source line 138). -/
def GetFeedContent.requestURL (client : FeedlyClient) (streamID : GoString) (unreadOnly : Bool)
    (newerThan : Int) : GoString :=
  getEndpoint client (lit "v3/streams/contents") ++ lit "?" ++
    (GetFeedContent.params streamID unreadOnly newerThan).Encode

/-- The request built by `GetFeedContent` (source lines 130-142). -/
def GetFeedContent.request (http : HTTP) (client : FeedlyClient) (accessToken streamID : GoString)
    (unreadOnly : Bool) (newerThan : Int) : Option Request :=
  buildRequest http (lit "GET") (GetFeedContent.requestURL client streamID unreadOnly newerThan)
    .none (authHeaders accessToken)

/-- The method `GetFeedContent` (source lines 129-150); `newerThan` is an `int64`. -/
def GetFeedContent (http : HTTP) (client : FeedlyClient) (accessToken streamID : GoString)
    (unreadOnly : Bool) (newerThan : Int) (log : Log) :
    Option ((Option JsonObject × Option Error) × Log) :=
  match GetFeedContent.request http client accessToken streamID unreadOnly newerThan with
  | none => none
  | some req =>
    match http.send req log with
    | (.fail _ err, log) => some ((none, some err), log)
    | (.ok res, log) =>
      let result := (http.decodeObject res.Body).result
      some ((result, none), log)

/-- The results `(res, err)` that the two raw operations hand back unchanged. -/
def rawResult : DoResult → Option Response × Option Error
  | .ok res => (some res, none)
  | .fail res err => (res, some err)

/-- The request URL of `MarkArticleRead` (source line 164). -/
def MarkArticleRead.requestURL (client : FeedlyClient) : GoString :=
  getEndpoint client (lit "v3/markers")

/-- The request built by `MarkArticleRead` (source lines 154-168). -/
def MarkArticleRead.request (http : HTTP) (client : FeedlyClient) (accessToken : GoString)
    (entryIds : List GoString) : Option Request :=
  let params : List (GoString × JsonParam) :=
    [ (lit "action", .str (lit "markAsRead")),
      (lit "type", .str (lit "entries")),
      (lit "entryIds", .strs entryIds) ]
  buildRequest http (lit "POST") (MarkArticleRead.requestURL client) (.json params)
    (jsonHeaders accessToken)

/-- The method `MarkArticleRead` (source lines 153-171). -/
def MarkArticleRead (http : HTTP) (client : FeedlyClient) (accessToken : GoString)
    (entryIds : List GoString) (log : Log) : Option ((Option Response × Option Error) × Log) :=
  match MarkArticleRead.request http client accessToken entryIds with
  | none => none
  | some req =>
    match http.send req log with
    | (out, log) => some (rawResult out, log)

/-- The request URL of `SaveForLater` (source line 179). -/
def SaveForLater.requestURL (client : FeedlyClient) (userID : GoString) : GoString :=
  getEndpoint client (lit "v3/tags") ++ lit "/user%2F" ++ userID ++ lit "%2Ftag%2Fglobal.saved"

/-- The request built by `SaveForLater` (source lines 175-187). -/
def SaveForLater.request (http : HTTP) (client : FeedlyClient) (accessToken userID : GoString)
    (entryIds : List GoString) : Option Request :=
  let params : List (GoString × JsonParam) := [ (lit "entryIds", .strs entryIds) ]
  buildRequest http (lit "PUT") (SaveForLater.requestURL client userID) (.json params)
    (jsonHeaders accessToken)

/-- The method `SaveForLater` (source lines 174-190). -/
def SaveForLater (http : HTTP) (client : FeedlyClient) (accessToken userID : GoString)
    (entryIds : List GoString) (log : Log) : Option ((Option Response × Option Error) × Log) :=
  match SaveForLater.request http client accessToken userID entryIds with
  | none => none
  | some req =>
    match http.send req log with
    | (out, log) => some (rawResult out, log)

/-! ## Reading a request back: query components, decimal values, map reads -/

/-- The part of a URL after its first `?` (empty when there is none). -/
def queryOf (url : GoString) : GoString :=
  (url.dropWhile (fun c => c != ch '?')).drop 1

/-- The query string of a URL split on `&`. -/
def queryComponents (url : GoString) : List GoString :=
  (queryOf url).splitOn (ch '&')

/-- The base URL of the host chosen by the sandbox flag. -/
def baseURL (sandbox : Bool) : GoString :=
  if sandbox then lit "https://sandbox.feedly.com/" else lit "https://cloud.feedly.com/"

/-- The number that a string of decimal digits denotes, read left to right. -/
def decimalValue (s : GoString) : Nat :=
  s.foldl (fun acc c => 10 * acc + (c.val - 48)) 0

/-- The two-value map read `vs, ok := v[k]`; `none` when the key is absent. -/
def Values.lookup (v : Values) (k : GoString) : Option (List GoString) :=
  (v.find? (fun kv => kv.1 == k)).map Prod.snd

/-! ## The path segment that the specification describes for `SaveForLater` -/

/-- Percent-encoding of the slashes of a path segment, in the words of the
specification: every `/` becomes `%2F`, every other byte is kept. -/
def encodeSlashes (s : GoString) : GoString :=
  s.flatMap (fun c => if c == ch '/' then lit "%2F" else [c])

/-- The single path segment of the specification: `user/<user_id>/tag/global.saved`
with its slashes percent-encoded. -/
def savedTagSegment (userID : GoString) : GoString :=
  encodeSlashes (lit "user/" ++ userID ++ lit "/tag/global.saved")

/-! ## Concrete inputs -/

/-- The options of a sandbox client used as a concrete input. -/
def sampleOptions : Options :=
  [ (lit "client_id", .str (lit "id")),
    (lit "client_secret", .str (lit "s3cret")),
    (lit "sandbox", .bool true),
    (lit "additional_headers", .headers [(lit "X-App", lit "demo")]),
    (lit "token", .str (lit "tok")),
    (lit "secret", .str (lit "sec")) ]

/-- The client that `NewFeedlyClient` returns on `sampleOptions`. -/
def sampleClient : FeedlyClient :=
  { ClientID := lit "id"
    ClientSecret := lit "s3cret"
    Sandbox := true
    ServiceHost := lit "sandbox.feedly.com"
    AdditionalHeaders := [(lit "X-App", lit "demo")]
    Token := lit "tok"
    Secret := lit "sec" }

/-- An environment in which every URL parses and every call of the HTTP layer
fails with a connection error. -/
def refusedHTTP : HTTP :=
  { parseURL := fun _ => none
    Do := fun _ _ => .fail none ⟨lit "connection refused"⟩
    decodeObject := fun _ => ⟨none, none⟩
    decodeObjects := fun _ => ⟨none, none⟩ }

/-- An environment in which every URL parses, every call of the HTTP layer
succeeds with a body that is not JSON, and decoding that body fails. -/
def garbledHTTP : HTTP :=
  { parseURL := fun _ => none
    Do := fun _ _ => .ok ⟨200, lit "<html>"⟩
    decodeObject := fun _ => ⟨none, some ⟨lit "invalid character"⟩⟩
    decodeObjects := fun _ => ⟨none, some ⟨lit "invalid character"⟩⟩ }

/-- The request that `GetUserProfile` builds for `sampleClient` and the access
token `abc`. -/
def sampleProfileRequest : Request :=
  { Method := lit "GET"
    URL := lit "https://sandbox.feedly.com/v3/user"
    Header := [(lit "Authorization", [lit "OAuth abc"])]
    Body := .none }

/-! # Theorems -/

/-! ## Host resolution -/

theorem NewFeedlyClient_fields {options : Options} {client : FeedlyClient}
    (h : NewFeedlyClient options = some client) :
    ∃ sandbox, options.get (lit "sandbox") = some (.bool sandbox) ∧
      client.Sandbox = sandbox ∧
      client.ServiceHost =
        (if sandbox then lit "sandbox.feedly.com" else lit "cloud.feedly.com") := by
  unfold NewFeedlyClient at h
  simp only [Option.bind_eq_bind, Option.bind_eq_some] at h
  obtain ⟨cid, -, csec, -, sb, hsb, hdrs, -, tok, -, sec, -, h⟩ := h
  refine ⟨sb, ?_, ?_⟩
  · unfold assertBool at hsb
    split at hsb
    · rename_i v hv
      simp only [Option.some.injEq] at hsb
      rw [hv, hsb]
    · exact absurd hsb (by simp)
  · cases sb <;> simp at h <;> subst h <;> simp

theorem getEndpoint_of_new {options : Options} {client : FeedlyClient} {sandbox : Bool}
    (hnew : NewFeedlyClient options = some client)
    (hopt : options.get (lit "sandbox") = some (.bool sandbox)) (path : GoString) :
    getEndpoint client path = baseURL sandbox ++ path := by
  obtain ⟨sb, hsb, -, hhost⟩ := NewFeedlyClient_fields hnew
  rw [hopt] at hsb
  simp only [Option.some.injEq, OptionValue.bool.injEq] at hsb
  subst hsb
  unfold getEndpoint baseURL
  rw [hhost]
  cases sandbox
  · show (lit "https://" ++ lit "cloud.feedly.com" ++ lit "/") ++ path = _
    rfl
  · show (lit "https://" ++ lit "sandbox.feedly.com" ++ lit "/") ++ path = _
    rfl

/-- C1. For a client returned by `NewFeedlyClient`, the URL that `getEndpoint`
builds for any path, and with it the request URL of each of the eight
operations, starts with `https://sandbox.feedly.com/` when the `sandbox` option
is true and with `https://cloud.feedly.com/` when it is false. -/
theorem endpoint_under_selected_host (options : Options) (client : FeedlyClient)
    (sandbox : Bool)
    (hnew : NewFeedlyClient options = some client)
    (hopt : options.get (lit "sandbox") = some (.bool sandbox)) :
    (∀ path, baseURL sandbox <+: getEndpoint client path) ∧
    (∀ callbackURL, baseURL sandbox <+: GetCodeURL client callbackURL) ∧
    baseURL sandbox <+: GetAccessToken.requestURL client ∧
    baseURL sandbox <+: RefreshAccessToken.requestURL client ∧
    baseURL sandbox <+: GetUserProfile.requestURL client ∧
    baseURL sandbox <+: GetUserSubscriptions.requestURL client ∧
    (∀ streamID unreadOnly newerThan,
      baseURL sandbox <+: GetFeedContent.requestURL client streamID unreadOnly newerThan) ∧
    baseURL sandbox <+: MarkArticleRead.requestURL client ∧
    (∀ userID, baseURL sandbox <+: SaveForLater.requestURL client userID) := by
  have key : ∀ path, baseURL sandbox <+: getEndpoint client path := fun path => by
    rw [getEndpoint_of_new hnew hopt]
    exact List.prefix_append _ _
  refine ⟨key, ?_, key _, key _, key _, key _, ?_, key _, ?_⟩
  · intro callbackURL
    unfold GetCodeURL
    simp only [List.append_assoc]
    exact (key _).trans (List.prefix_append _ _)
  · intro streamID unreadOnly newerThan
    unfold GetFeedContent.requestURL
    simp only [List.append_assoc]
    exact (key _).trans (List.prefix_append _ _)
  · intro userID
    unfold SaveForLater.requestURL
    simp only [List.append_assoc]
    exact (key _).trans (List.prefix_append _ _)

theorem endpoint_under_selected_host_witness :
    NewFeedlyClient sampleOptions = some sampleClient ∧
    lit "https://sandbox.feedly.com/" <+: SaveForLater.requestURL sampleClient (lit "abc") :=
  ⟨by decide,
   (endpoint_under_selected_host sampleOptions sampleClient true (by decide) (by decide)).2.2.2.2.2.2.2.2
     (lit "abc")⟩

/-! ## The authorization URL -/

theorem splitOn_length (a : Byte) (l : GoString) :
    (l.splitOn a).length = l.count a + 1 := by
  induction l with
  | nil => simp [List.splitOn]
  | cons x xs ih =>
    simp only [List.splitOn] at ih ⊢
    rw [List.splitOnP_cons]
    by_cases hx : x = a
    · subst hx
      simp [ih]
    · have hne : (x == a) = false := by simpa using hx
      simp [hne, ih, List.count_cons, hx]

theorem queryOf_append (pre rest : GoString) (h : ch '?' ∉ pre) :
    queryOf (pre ++ ch '?' :: rest) = rest := by
  unfold queryOf
  induction pre with
  | nil => simp [List.dropWhile]
  | cons x xs ih =>
    have hx : x ≠ ch '?' := fun e => h (by simp [e])
    have hxs : ch '?' ∉ xs := fun e => h (by simp [e])
    rw [List.cons_append, List.dropWhile_cons_of_pos (by simpa using hx)]
    exact ih hxs

theorem serviceHost_no_question {options : Options} {client : FeedlyClient}
    (hnew : NewFeedlyClient options = some client) : ch '?' ∉ client.ServiceHost := by
  obtain ⟨sb, -, -, hhost⟩ := NewFeedlyClient_fields hnew
  rw [hhost]
  cases sb <;> decide

theorem GetCodeURL_shape (client : FeedlyClient) (callbackURL : GoString) :
    GetCodeURL client callbackURL =
      (lit "https://" ++ client.ServiceHost ++ lit "/v3/auth/auth") ++ ch '?' ::
        [ch '&'].intercalate
          [ lit "client_id=" ++ client.ClientID,
            lit "redirect_uri=" ++ callbackURL,
            lit "scope=https://cloud.feedly.com/subscriptions",
            lit "response_type=code" ] := by
  simp only [GetCodeURL, getEndpoint, List.intercalate, List.intersperse, List.flatten,
    List.append_assoc, List.append_nil]
  rfl

/-- C10. `GetCodeURL` returns exactly `getEndpoint("v3/auth/auth")` followed by
`?client_id=`, the client id, `&redirect_uri=`, the callback URL and
`&scope=https://cloud.feedly.com/subscriptions&response_type=code`: the client id
and the callback are embedded unchanged, the scope text is the same for every
client (sandbox or not), and the result is a plain string with no error. -/
theorem GetCodeURL_exact (client : FeedlyClient) (callbackURL : GoString) :
    GetCodeURL client callbackURL =
      getEndpoint client (lit "v3/auth/auth") ++ lit "?client_id=" ++ client.ClientID ++
        lit "&redirect_uri=" ++ callbackURL ++
        lit "&scope=https://cloud.feedly.com/subscriptions&response_type=code" := by
  simp only [GetCodeURL, List.append_assoc]
  rfl

/-- C5, as stated, fails: for the sample client and the callback
`http://localhost/cb` the query string splits on `&` into four components,
not five. -/
theorem GetCodeURL_four_components_example :
    queryComponents (GetCodeURL sampleClient (lit "http://localhost/cb")) =
      [ lit "client_id=id",
        lit "redirect_uri=http://localhost/cb",
        lit "scope=https://cloud.feedly.com/subscriptions",
        lit "response_type=code" ] ∧
    (queryComponents (GetCodeURL sampleClient (lit "http://localhost/cb"))).length ≠ 5 := by
  decide

/-- C5, amended. For a client whose host has no `?` (every client returned by
`NewFeedlyClient`), `GetCodeURL` yields the same URL on identical inputs; the
query string of the URL splits on `&` into four components plus one for each
`&` inside the client id or the callback URL; and when neither holds an `&` the
components are exactly `client_id=<id>`, `redirect_uri=<callback>`,
`scope=https://cloud.feedly.com/subscriptions` and `response_type=code`. -/
theorem GetCodeURL_query_components (client : FeedlyClient) (callbackURL : GoString)
    (hhost : ch '?' ∉ client.ServiceHost) :
    (∀ client2 callbackURL2, client2 = client → callbackURL2 = callbackURL →
      GetCodeURL client2 callbackURL2 = GetCodeURL client callbackURL) ∧
    (queryComponents (GetCodeURL client callbackURL)).length =
      4 + client.ClientID.count (ch '&') + callbackURL.count (ch '&') ∧
    (ch '&' ∉ client.ClientID → ch '&' ∉ callbackURL →
      queryComponents (GetCodeURL client callbackURL) =
        [ lit "client_id=" ++ client.ClientID,
          lit "redirect_uri=" ++ callbackURL,
          lit "scope=https://cloud.feedly.com/subscriptions",
          lit "response_type=code" ]) := by
  have hpre : ch '?' ∉ lit "https://" ++ client.ServiceHost ++ lit "/v3/auth/auth" := by
    simp only [List.mem_append, not_or]
    exact ⟨⟨by decide, hhost⟩, by decide⟩
  have hq := queryOf_append _ ([ch '&'].intercalate
          [ lit "client_id=" ++ client.ClientID,
            lit "redirect_uri=" ++ callbackURL,
            lit "scope=https://cloud.feedly.com/subscriptions",
            lit "response_type=code" ]) hpre
  rw [← GetCodeURL_shape] at hq
  refine ⟨?_, ?_, ?_⟩
  · rintro _ _ rfl rfl
    rfl
  · unfold queryComponents
    rw [hq, splitOn_length]
    simp only [List.intercalate, List.intersperse, List.flatten, List.count_append,
      List.append_nil]
    have h1 : (lit "client_id=").count (ch '&') = 0 := by decide
    have h2 : (lit "redirect_uri=").count (ch '&') = 0 := by decide
    have h3 : (lit "scope=https://cloud.feedly.com/subscriptions").count (ch '&') = 0 := by
      decide
    have h4 : (lit "response_type=code").count (ch '&') = 0 := by decide
    have h5 : [ch '&'].count (ch '&') = 1 := by decide
    rw [h1, h2, h3, h4, h5]
    omega
  · intro hid hcb
    unfold queryComponents
    rw [hq]
    apply List.splitOn_intercalate
    · intro l hl
      simp only [List.mem_cons, List.mem_singleton, List.not_mem_nil, or_false] at hl
      rcases hl with rfl | rfl | rfl | rfl
      · simp only [List.mem_append, not_or]
        exact ⟨by decide, hid⟩
      · simp only [List.mem_append, not_or]
        exact ⟨by decide, hcb⟩
      · decide
      · decide
    · simp

theorem GetCodeURL_query_components_witness :
    queryComponents (GetCodeURL sampleClient (lit "cb")) =
      [ lit "client_id=" ++ sampleClient.ClientID,
        lit "redirect_uri=" ++ lit "cb",
        lit "scope=https://cloud.feedly.com/subscriptions",
        lit "response_type=code" ] :=
  (GetCodeURL_query_components sampleClient (lit "cb") (by decide)).2.2 (by decide) (by decide)

/-! ## The save-for-later path -/

theorem encodeSlashes_append (a b : GoString) :
    encodeSlashes (a ++ b) = encodeSlashes a ++ encodeSlashes b := by
  simp [encodeSlashes, List.flatMap_append]

theorem encodeSlashes_of_no_slash (s : GoString) (h : ch '/' ∉ s) : encodeSlashes s = s := by
  induction s with
  | nil => rfl
  | cons x xs ih =>
    have hx : x ≠ ch '/' := fun e => h (by simp [e])
    have hxs : ch '/' ∉ xs := fun e => h (by simp [e])
    have ih2 := ih hxs
    simp only [encodeSlashes, List.flatMap_cons] at ih2 ⊢
    rw [ih2]
    simp [hx]

theorem encodeSlashes_no_slash (s : GoString) : ch '/' ∉ encodeSlashes s := by
  induction s with
  | nil => simp [encodeSlashes]
  | cons x xs ih =>
    simp only [encodeSlashes, List.flatMap_cons, List.mem_append, not_or] at ih ⊢
    refine ⟨?_, ih⟩
    by_cases hx : x = ch '/'
    · subst hx
      decide
    · simp [hx]
      exact fun e => hx e.symm

/-- C2, as stated, fails: for the user id `a/b` the URL of `SaveForLater` holds
the user id unchanged, so its last part `user%2Fa/b%2Ftag%2Fglobal.saved` has a
raw `/` and is not the percent-encoded segment of the specification. -/
theorem SaveForLater_raw_slash_example :
    SaveForLater.requestURL sampleClient (lit "a/b") =
      getEndpoint sampleClient (lit "v3/tags") ++ lit "/" ++
        lit "user%2Fa/b%2Ftag%2Fglobal.saved" ∧
    ch '/' ∈ lit "user%2Fa/b%2Ftag%2Fglobal.saved" ∧
    savedTagSegment (lit "a/b") = lit "user%2Fa%2Fb%2Ftag%2Fglobal.saved" ∧
    SaveForLater.requestURL sampleClient (lit "a/b") ≠
      getEndpoint sampleClient (lit "v3/tags") ++ lit "/" ++ savedTagSegment (lit "a/b") := by
  decide

/-- C2, amended. The URL of `SaveForLater` is `getEndpoint("v3/tags")`, a `/`, then
`user%2F`, the user id unchanged, and `%2Ftag%2Fglobal.saved`: only the two fixed
slashes are percent-encoded.  This last part has a raw `/` exactly when the user
id has one, and it is the segment of the specification
(`user/<user_id>/tag/global.saved` with every `/` written `%2F`) exactly when the
user id has no `/`; for `abc` it is `user%2Fabc%2Ftag%2Fglobal.saved`. -/
theorem SaveForLater_url (client : FeedlyClient) (userID : GoString) :
    SaveForLater.requestURL client userID =
      getEndpoint client (lit "v3/tags") ++ lit "/" ++
        (lit "user%2F" ++ userID ++ lit "%2Ftag%2Fglobal.saved") ∧
    (ch '/' ∈ lit "user%2F" ++ userID ++ lit "%2Ftag%2Fglobal.saved" ↔ ch '/' ∈ userID) ∧
    (lit "user%2F" ++ userID ++ lit "%2Ftag%2Fglobal.saved" = savedTagSegment userID ↔
      ch '/' ∉ userID) ∧
    lit "user%2F" ++ lit "abc" ++ lit "%2Ftag%2Fglobal.saved" =
      lit "user%2Fabc%2Ftag%2Fglobal.saved" := by
  have hmem : ch '/' ∈ lit "user%2F" ++ userID ++ lit "%2Ftag%2Fglobal.saved" ↔
      ch '/' ∈ userID := by
    have h1 : ch '/' ∉ lit "user%2F" := by decide
    have h2 : ch '/' ∉ lit "%2Ftag%2Fglobal.saved" := by decide
    simp [List.mem_append, h1, h2]
  refine ⟨?_, hmem, ⟨fun heq hin => ?_, fun h => ?_⟩, by decide⟩
  · simp only [SaveForLater.requestURL, List.append_assoc]
    rfl
  · have hseg := hmem.mpr hin
    rw [heq] at hseg
    exact encodeSlashes_no_slash _ hseg
  · unfold savedTagSegment
    rw [encodeSlashes_append, encodeSlashes_append, encodeSlashes_of_no_slash userID h]
    rfl

theorem SaveForLater_url_witness :
    lit "user%2F" ++ lit "abc" ++ lit "%2Ftag%2Fglobal.saved" = savedTagSegment (lit "abc") :=
  (SaveForLater_url sampleClient (lit "abc")).2.2.1.mpr (by decide)

/-! ## The feed-content query -/

theorem digitByte_val (d : Nat) (h : d < 10) : (digitByte d).val = 48 + d := by
  unfold digitByte
  simp only [Fin.ofNat, Fin.val_mk]
  omega

theorem formatBits_digits (u : Nat) : ∀ c ∈ formatBits u, ch '0' ≤ c ∧ c ≤ ch '9' := by
  induction u using Nat.strong_induction_on with
  | _ u ih =>
    have hd : ∀ d, d < 10 → ch '0' ≤ digitByte d ∧ digitByte d ≤ ch '9' := by
      intro d hd
      interval_cases d <;> decide
    intro c hc
    rw [formatBits] at hc
    split at hc
    · rename_i hlt
      simp only [List.mem_singleton] at hc
      subst hc
      exact hd u hlt
    · simp only [List.mem_append, List.mem_singleton] at hc
      rcases hc with hc | hc
      · exact ih (u / 10) (by omega) c hc
      · subst hc
        exact hd _ (Nat.mod_lt _ (by omega))

theorem decimalValue_formatBits (u : Nat) : decimalValue (formatBits u) = u := by
  induction u using Nat.strong_induction_on with
  | _ u ih =>
    rw [formatBits]
    split
    · rename_i hlt
      simp only [decimalValue, List.foldl_cons, List.foldl_nil]
      rw [digitByte_val u hlt]
      omega
    · have h := ih (u / 10) (by omega)
      unfold decimalValue at h ⊢
      rw [List.foldl_append, h]
      simp only [List.foldl_cons, List.foldl_nil]
      rw [digitByte_val _ (Nat.mod_lt _ (by omega))]
      omega

theorem escapeByte_unreserved (c : Byte) (h : shouldEscape c = false) : escapeByte c = [c] := by
  unfold escapeByte
  have hsp : (c == ch ' ') = false := by
    cases hc : c == ch ' '
    · rfl
    · have : c = ch ' ' := by simpa using hc
      subst this
      exact absurd h (by decide)
  simp [hsp, h]

theorem QueryEscape_unreserved (s : GoString) (h : ∀ c ∈ s, shouldEscape c = false) :
    QueryEscape s = s := by
  induction s with
  | nil => rfl
  | cons x xs ih =>
    have hx := escapeByte_unreserved x (h x (by simp))
    have hxs := ih (fun c hc => h c (by simp [hc]))
    simp only [QueryEscape, List.flatMap_cons] at hxs ⊢
    rw [hx, hxs]
    rfl

theorem shouldEscape_digit (c : Byte) (h : ch '0' ≤ c ∧ c ≤ ch '9') : shouldEscape c = false := by
  unfold shouldEscape
  simp [h.1, h.2]

theorem QueryEscape_FormatInt (i : Int) : QueryEscape (FormatInt i) = FormatInt i := by
  apply QueryEscape_unreserved
  intro c hc
  unfold FormatInt at hc
  split at hc
  · simp only [List.mem_cons] at hc
    rcases hc with hc | hc
    · subst hc
      decide
    · exact shouldEscape_digit c (formatBits_digits _ c hc)
  · exact shouldEscape_digit c (formatBits_digits _ c hc)

theorem QueryEscape_FormatBool (v : Bool) : QueryEscape (FormatBool v) = FormatBool v := by
  cases v <;> decide

theorem escapeByte_no_separator (c : Byte) : ch '&' ∉ escapeByte c ∧ ch '=' ∉ escapeByte c := by
  have hex : ∀ n, upperhex.getD n 0 ≠ ch '&' ∧ upperhex.getD n 0 ≠ ch '=' := by
    intro n
    by_cases hn : n < 16
    · interval_cases n <;> decide
    · have : upperhex.getD n 0 = 0 := by
        apply List.getD_eq_default
        have : upperhex.length = 16 := by decide
        omega
      rw [this]
      decide
  unfold escapeByte
  split
  · decide
  · split
    · have h1 := hex (c.val / 16)
      have h2 := hex (c.val % 16)
      simp only [List.mem_cons, List.mem_singleton, List.not_mem_nil, or_false, not_or]
      exact ⟨⟨by decide, fun e => h1.1 e.symm, fun e => h2.1 e.symm⟩,
        ⟨by decide, fun e => h1.2 e.symm, fun e => h2.2 e.symm⟩⟩
    · rename_i hs
      simp only [List.mem_singleton]
      constructor
      · intro e
        subst e
        exact hs (by decide)
      · intro e
        subst e
        exact hs (by decide)

theorem QueryEscape_no_separator (s : GoString) :
    ch '&' ∉ QueryEscape s ∧ ch '=' ∉ QueryEscape s := by
  induction s with
  | nil => simp [QueryEscape]
  | cons x xs ih =>
    have hx := escapeByte_no_separator x
    simp only [QueryEscape, List.flatMap_cons, List.mem_append, not_or] at ih ⊢
    exact ⟨⟨hx.1, ih.1⟩, ⟨hx.2, ih.2⟩⟩

theorem GetFeedContent_params_Encode (streamID : GoString) (unreadOnly : Bool) (newerThan : Int) :
    (GetFeedContent.params streamID unreadOnly newerThan).Encode =
      [ch '&'].intercalate
        [ lit "newerThan=" ++ FormatInt newerThan,
          lit "streamId=" ++ QueryEscape streamID,
          lit "unreadOnly=" ++ FormatBool unreadOnly ] := by
  have hkeys : sortStrings (GetFeedContent.params streamID unreadOnly newerThan).keys =
      [lit "newerThan", lit "streamId", lit "unreadOnly"] := rfl
  have g1 : (GetFeedContent.params streamID unreadOnly newerThan).get (lit "newerThan") =
      [FormatInt newerThan] := rfl
  have g2 : (GetFeedContent.params streamID unreadOnly newerThan).get (lit "streamId") =
      [streamID] := rfl
  have g3 : (GetFeedContent.params streamID unreadOnly newerThan).get (lit "unreadOnly") =
      [FormatBool unreadOnly] := rfl
  have k1 : QueryEscape (lit "newerThan") = lit "newerThan" := by decide
  have k2 : QueryEscape (lit "streamId") = lit "streamId" := by decide
  have k3 : QueryEscape (lit "unreadOnly") = lit "unreadOnly" := by decide
  unfold Values.Encode
  rw [hkeys]
  simp only [List.foldl_cons, List.foldl_nil, g1, g2, g3, k1, k2, k3, QueryEscape_FormatInt,
    QueryEscape_FormatBool, List.length_nil, List.length_append, List.length_cons,
    List.intercalate, List.intersperse, List.flatten, List.append_assoc, List.append_nil,
    List.nil_append]
  simp
  rfl

/-- C3. For a client whose host has no `?` (every client returned by
`NewFeedlyClient`), every stream id, every boolean and every integer (so every
`int64`), the query string of the URL of `GetFeedContent` splits on `&` into exactly
three components, `newerThan=<n>`, `streamId=<escaped id>` and `unreadOnly=<b>`,
where `<b>` is `true` or `false` after the boolean and `<n>` is the decimal
representation of the integer: an optional `-`, then digits `0`-`9` only (no
fraction), which denote the magnitude of the integer. -/
theorem GetFeedContent_query (client : FeedlyClient) (streamID : GoString) (unreadOnly : Bool)
    (newerThan : Int) (hhost : ch '?' ∉ client.ServiceHost) :
    queryComponents (GetFeedContent.requestURL client streamID unreadOnly newerThan) =
      [ lit "newerThan=" ++ FormatInt newerThan,
        lit "streamId=" ++ QueryEscape streamID,
        lit "unreadOnly=" ++ (if unreadOnly then lit "true" else lit "false") ] ∧
    ch '&' ∉ QueryEscape streamID ∧ ch '=' ∉ QueryEscape streamID ∧
    FormatInt newerThan =
      (if newerThan < 0 then lit "-" else []) ++ formatBits newerThan.natAbs ∧
    (∀ c ∈ formatBits newerThan.natAbs, ch '0' ≤ c ∧ c ≤ ch '9') ∧
    decimalValue (formatBits newerThan.natAbs) = newerThan.natAbs := by
  refine ⟨?_, (QueryEscape_no_separator streamID).1, (QueryEscape_no_separator streamID).2, ?_,
    formatBits_digits _, decimalValue_formatBits _⟩
  · have hpre : ch '?' ∉ lit "https://" ++ client.ServiceHost ++ lit "/" ++
        lit "v3/streams/contents" := by
      simp only [List.mem_append, not_or]
      exact ⟨⟨⟨by decide, hhost⟩, by decide⟩, by decide⟩
    have hurl : GetFeedContent.requestURL client streamID unreadOnly newerThan =
        (lit "https://" ++ client.ServiceHost ++ lit "/" ++ lit "v3/streams/contents") ++
          ch '?' :: (GetFeedContent.params streamID unreadOnly newerThan).Encode := by
      simp only [GetFeedContent.requestURL, getEndpoint, List.append_assoc]
      rfl
    unfold queryComponents
    rw [hurl, queryOf_append _ _ hpre, GetFeedContent_params_Encode]
    have hbool : FormatBool unreadOnly = if unreadOnly then lit "true" else lit "false" := rfl
    rw [hbool]
    apply List.splitOn_intercalate
    · intro l hl
      simp only [List.mem_cons, List.mem_singleton, List.not_mem_nil, or_false] at hl
      rcases hl with rfl | rfl | rfl
      · simp only [List.mem_append, not_or]
        refine ⟨by decide, fun hmem => ?_⟩
        have hd := formatBits_digits newerThan.natAbs
        unfold FormatInt at hmem
        split at hmem
        · rename_i hneg
          simp only [List.mem_cons] at hmem
          rcases hmem with hmem | hmem
          · exact absurd hmem (by decide)
          · have := formatBits_digits _ _ hmem
            revert this
            decide
        · have := formatBits_digits _ _ hmem
          revert this
          decide
      · simp only [List.mem_append, not_or]
        exact ⟨by decide, (QueryEscape_no_separator streamID).1⟩
      · cases unreadOnly <;> decide
    · simp
  · unfold FormatInt
    split
    · rename_i hneg
      have : (-newerThan).toNat = newerThan.natAbs := by omega
      rw [this]
      rfl
    · rename_i hneg
      have : newerThan.toNat = newerThan.natAbs := by omega
      rw [this]
      rfl

theorem GetFeedContent_query_witness :
    queryComponents (GetFeedContent.requestURL sampleClient (lit "feed/a&b") true (-42)) =
      [ lit "newerThan=" ++ FormatInt (-42),
        lit "streamId=" ++ QueryEscape (lit "feed/a&b"),
        lit "unreadOnly=" ++ (if true then lit "true" else lit "false") ] :=
  (GetFeedContent_query sampleClient (lit "feed/a&b") true (-42) (by decide)).1

/-! ## The token requests -/

/-- C4, as stated, fails: `redirect_uri` is none of `grant_type`, `code` and
`refresh_token`, it is among the parameters of `GetAccessToken`, and it is not
among those of `RefreshAccessToken`. -/
theorem token_params_redirect_uri_example :
    lit "redirect_uri" ≠ lit "grant_type" ∧ lit "redirect_uri" ≠ lit "code" ∧
    lit "redirect_uri" ≠ lit "refresh_token" ∧
    (GetAccessToken.params sampleClient (lit "http://cb") (lit "c0de")).lookup
      (lit "redirect_uri") = some [lit "http://cb"] ∧
    (RefreshAccessToken.params sampleClient (lit "rt")).lookup (lit "redirect_uri") = none := by
  decide

/-- C4, amended. The form parameters of `GetAccessToken` and `RefreshAccessToken`
agree on every key other than `grant_type`, `code`, `refresh_token` and
`redirect_uri` (each such key is in both with the same value or in neither; both
carry the client's `client_id` and `client_secret`).  The first sends
`grant_type=authorization_code`, `redirect_uri` and `code` and no `refresh_token`;
the second sends `grant_type=refresh_token` and `refresh_token` and neither `code`
nor `redirect_uri`. -/
theorem token_params_agree (client : FeedlyClient) (redirectURI code refreshToken : GoString) :
    (∀ key, key ≠ lit "grant_type" → key ≠ lit "code" → key ≠ lit "refresh_token" →
      key ≠ lit "redirect_uri" →
      (GetAccessToken.params client redirectURI code).lookup key =
        (RefreshAccessToken.params client refreshToken).lookup key) ∧
    (GetAccessToken.params client redirectURI code).lookup (lit "client_id") =
      some [client.ClientID] ∧
    (GetAccessToken.params client redirectURI code).lookup (lit "client_secret") =
      some [client.ClientSecret] ∧
    (GetAccessToken.params client redirectURI code).lookup (lit "grant_type") =
      some [lit "authorization_code"] ∧
    (RefreshAccessToken.params client refreshToken).lookup (lit "grant_type") =
      some [lit "refresh_token"] ∧
    (GetAccessToken.params client redirectURI code).lookup (lit "code") = some [code] ∧
    (RefreshAccessToken.params client refreshToken).lookup (lit "code") = none ∧
    (GetAccessToken.params client redirectURI code).lookup (lit "refresh_token") = none ∧
    (RefreshAccessToken.params client refreshToken).lookup (lit "refresh_token") =
      some [refreshToken] ∧
    (GetAccessToken.params client redirectURI code).lookup (lit "redirect_uri") =
      some [redirectURI] ∧
    (RefreshAccessToken.params client refreshToken).lookup (lit "redirect_uri") = none := by
  refine ⟨?_, rfl, rfl, rfl, rfl, rfl, rfl, rfl, rfl, rfl, rfl⟩
  intro key h1 h2 h3 h4
  by_cases h5 : key = lit "client_id"
  · subst h5
    rfl
  by_cases h6 : key = lit "client_secret"
  · subst h6
    rfl
  have e : ∀ k : GoString, key ≠ k → (k == key) = false := by
    intro k hk
    simpa using fun h => hk h.symm
  simp [Values.lookup, GetAccessToken.params, RefreshAccessToken.params, List.find?_cons,
    e _ h1, e _ h2, e _ h3, e _ h4, e _ h5, e _ h6]

theorem token_params_agree_witness :
    (GetAccessToken.params sampleClient (lit "http://cb") (lit "c0de")).lookup
        (lit "client_secret") =
      (RefreshAccessToken.params sampleClient (lit "rt")).lookup (lit "client_secret") :=
  (token_params_agree sampleClient (lit "http://cb") (lit "c0de") (lit "rt")).1
    (lit "client_secret") (by decide) (by decide) (by decide) (by decide)

/-! ## Request headers -/

theorem buildRequest_eq_some {http : HTTP} {method url : GoString} {body : Body}
    {headers : StringMap} {req : Request} :
    buildRequest http method url body headers = some req ↔
      http.parseURL url = none ∧
        req = setHeaders { Method := method, URL := url, Header := [], Body := body } headers := by
  unfold buildRequest NewRequest
  cases h : http.parseURL url with
  | none => simp [eq_comm]
  | some err => simp

theorem buildRequest_isSome {http : HTTP} {method url : GoString} {body : Body}
    {headers : StringMap} (h : http.parseURL url = none) :
    (buildRequest http method url body headers).isSome = true := by
  unfold buildRequest NewRequest
  rw [h]
  rfl

theorem setHeaders_auth (req : Request) (accessToken : GoString) (h : req.Header = []) :
    (setHeaders req (authHeaders accessToken)).Header =
      [(lit "Authorization", [lit "OAuth " ++ accessToken])] := by
  have hk : CanonicalMIMEHeaderKey (lit "Authorization") = lit "Authorization" := by decide
  simp [setHeaders, authHeaders, Header.Set, h, hk]

theorem setHeaders_json (req : Request) (accessToken : GoString) (h : req.Header = []) :
    (setHeaders req (jsonHeaders accessToken)).Header =
      [ (lit "Authorization", [lit "OAuth " ++ accessToken]),
        (lit "Content-Type", [lit "application/json"]) ] := by
  have hk : CanonicalMIMEHeaderKey (lit "Authorization") = lit "Authorization" := by decide
  have hc : CanonicalMIMEHeaderKey (lit "content-type") = lit "Content-Type" := by decide
  have hne : (lit "Content-Type" != lit "Authorization") = true := by decide
  simp [setHeaders, jsonHeaders, Header.Set, h, hk, hc, hne]

theorem auth_request_header {http : HTTP} {method url : GoString} {body : Body}
    {accessToken : GoString} {req : Request}
    (h : buildRequest http method url body (authHeaders accessToken) = some req) :
    req.Header = [(lit "Authorization", [lit "OAuth " ++ accessToken])] := by
  rw [buildRequest_eq_some] at h
  rw [h.2]
  exact setHeaders_auth _ _ rfl

theorem json_request_header {http : HTTP} {method url : GoString} {body : Body}
    {accessToken : GoString} {req : Request}
    (h : buildRequest http method url body (jsonHeaders accessToken) = some req) :
    req.Header =
      [ (lit "Authorization", [lit "OAuth " ++ accessToken]),
        (lit "Content-Type", [lit "application/json"]) ] := by
  rw [buildRequest_eq_some] at h
  rw [h.2]
  exact setHeaders_json _ _ rfl

/-- C6. Whenever one of the five authenticated operations builds its request
(which it does if the request URL parses), the request carries the header
`Authorization` with the single value `OAuth ` followed by the access token that
was passed as argument; the request is the same whatever `Token` and `Secret` the
client stores. -/
theorem authorization_header (http : HTTP) (client : FeedlyClient)
    (accessToken streamID userID token secret : GoString) (unreadOnly : Bool) (newerThan : Int)
    (entryIds : List GoString) :
    ((∀ req, GetUserProfile.request http client accessToken = some req →
        req.Header.lookup (lit "Authorization") = some [lit "OAuth " ++ accessToken]) ∧
      (http.parseURL (GetUserProfile.requestURL client) = none →
        (GetUserProfile.request http client accessToken).isSome = true) ∧
      GetUserProfile.request http { client with Token := token, Secret := secret } accessToken =
        GetUserProfile.request http client accessToken) ∧
    ((∀ req, GetUserSubscriptions.request http client accessToken = some req →
        req.Header.lookup (lit "Authorization") = some [lit "OAuth " ++ accessToken]) ∧
      (http.parseURL (GetUserSubscriptions.requestURL client) = none →
        (GetUserSubscriptions.request http client accessToken).isSome = true) ∧
      GetUserSubscriptions.request http { client with Token := token, Secret := secret }
          accessToken =
        GetUserSubscriptions.request http client accessToken) ∧
    ((∀ req,
        GetFeedContent.request http client accessToken streamID unreadOnly newerThan = some req →
        req.Header.lookup (lit "Authorization") = some [lit "OAuth " ++ accessToken]) ∧
      (http.parseURL (GetFeedContent.requestURL client streamID unreadOnly newerThan) = none →
        (GetFeedContent.request http client accessToken streamID unreadOnly newerThan).isSome =
          true) ∧
      GetFeedContent.request http { client with Token := token, Secret := secret } accessToken
          streamID unreadOnly newerThan =
        GetFeedContent.request http client accessToken streamID unreadOnly newerThan) ∧
    ((∀ req, MarkArticleRead.request http client accessToken entryIds = some req →
        req.Header.lookup (lit "Authorization") = some [lit "OAuth " ++ accessToken]) ∧
      (http.parseURL (MarkArticleRead.requestURL client) = none →
        (MarkArticleRead.request http client accessToken entryIds).isSome = true) ∧
      MarkArticleRead.request http { client with Token := token, Secret := secret } accessToken
          entryIds =
        MarkArticleRead.request http client accessToken entryIds) ∧
    ((∀ req, SaveForLater.request http client accessToken userID entryIds = some req →
        req.Header.lookup (lit "Authorization") = some [lit "OAuth " ++ accessToken]) ∧
      (http.parseURL (SaveForLater.requestURL client userID) = none →
        (SaveForLater.request http client accessToken userID entryIds).isSome = true) ∧
      SaveForLater.request http { client with Token := token, Secret := secret } accessToken
          userID entryIds =
        SaveForLater.request http client accessToken userID entryIds) := by
  refine ⟨⟨?_, ?_, rfl⟩, ⟨?_, ?_, rfl⟩, ⟨?_, ?_, rfl⟩, ⟨?_, ?_, rfl⟩, ⟨?_, ?_, rfl⟩⟩
  · intro req h
    rw [auth_request_header h]
    rfl
  · exact buildRequest_isSome
  · intro req h
    rw [auth_request_header h]
    rfl
  · exact buildRequest_isSome
  · intro req h
    rw [auth_request_header h]
    rfl
  · exact buildRequest_isSome
  · intro req h
    rw [json_request_header h]
    rfl
  · exact buildRequest_isSome
  · intro req h
    rw [json_request_header h]
    rfl
  · exact buildRequest_isSome

theorem authorization_header_witness :
    GetUserProfile.request refusedHTTP sampleClient (lit "abc") = some sampleProfileRequest ∧
    sampleProfileRequest.Header.lookup (lit "Authorization") = some [lit "OAuth " ++ lit "abc"] :=
  ⟨by decide,
   (authorization_header refusedHTTP sampleClient (lit "abc") [] [] [] [] false 0 []).1.1
     sampleProfileRequest (by decide)⟩

theorem PostForm_request_header {http : HTTP} {url : GoString} {data : Values} {req : Request}
    (h : PostForm.request http url data = .ok req) :
    req.Header = [(lit "Content-Type", [lit "application/x-www-form-urlencoded"])] := by
  unfold PostForm.request NewRequest at h
  cases hp : http.parseURL url with
  | some err => simp [hp] at h
  | none =>
    simp only [hp, Except.ok.injEq] at h
    rw [← h]
    rfl

/-- C7, as stated, fails: the sample client is built by `NewFeedlyClient` with the
additional header `X-App: demo`, and the request that `GetUserProfile` builds for
it has the `Authorization` header only. -/
theorem additional_headers_dropped_example :
    NewFeedlyClient sampleOptions = some sampleClient ∧
    (lit "X-App", lit "demo") ∈ sampleClient.AdditionalHeaders ∧
    GetUserProfile.request refusedHTTP sampleClient (lit "abc") = some sampleProfileRequest ∧
    sampleProfileRequest.Header.lookup (lit "X-App") = none := by
  decide

/-- C7, amended. The headers of the request that an operation sends are the fixed
headers of that operation and nothing else: `Authorization: OAuth <token>` on
`GetUserProfile`, `GetUserSubscriptions` and `GetFeedContent`; that header and
`Content-Type: application/json` on `MarkArticleRead` and `SaveForLater`;
`Content-Type: application/x-www-form-urlencoded` on the two token posts.  The
request is the same whatever `AdditionalHeaders` the client holds. -/
theorem request_headers_fixed (http : HTTP) (client : FeedlyClient) (extra : StringMap)
    (accessToken streamID userID redirectURI code refreshToken : GoString) (unreadOnly : Bool)
    (newerThan : Int) (entryIds : List GoString) :
    ((∀ req, GetUserProfile.request http client accessToken = some req →
        req.Header = [(lit "Authorization", [lit "OAuth " ++ accessToken])]) ∧
      GetUserProfile.request http { client with AdditionalHeaders := extra } accessToken =
        GetUserProfile.request http client accessToken) ∧
    ((∀ req, GetUserSubscriptions.request http client accessToken = some req →
        req.Header = [(lit "Authorization", [lit "OAuth " ++ accessToken])]) ∧
      GetUserSubscriptions.request http { client with AdditionalHeaders := extra } accessToken =
        GetUserSubscriptions.request http client accessToken) ∧
    ((∀ req,
        GetFeedContent.request http client accessToken streamID unreadOnly newerThan = some req →
        req.Header = [(lit "Authorization", [lit "OAuth " ++ accessToken])]) ∧
      GetFeedContent.request http { client with AdditionalHeaders := extra } accessToken
          streamID unreadOnly newerThan =
        GetFeedContent.request http client accessToken streamID unreadOnly newerThan) ∧
    ((∀ req, MarkArticleRead.request http client accessToken entryIds = some req →
        req.Header.Perm
          [ (lit "Authorization", [lit "OAuth " ++ accessToken]),
            (lit "Content-Type", [lit "application/json"]) ]) ∧
      MarkArticleRead.request http { client with AdditionalHeaders := extra } accessToken
          entryIds =
        MarkArticleRead.request http client accessToken entryIds) ∧
    ((∀ req, SaveForLater.request http client accessToken userID entryIds = some req →
        req.Header.Perm
          [ (lit "Authorization", [lit "OAuth " ++ accessToken]),
            (lit "Content-Type", [lit "application/json"]) ]) ∧
      SaveForLater.request http { client with AdditionalHeaders := extra } accessToken userID
          entryIds =
        SaveForLater.request http client accessToken userID entryIds) ∧
    ((∀ req,
        PostForm.request http (GetAccessToken.requestURL client)
          (GetAccessToken.params client redirectURI code) = .ok req →
        req.Header = [(lit "Content-Type", [lit "application/x-www-form-urlencoded"])]) ∧
      PostForm.request http (GetAccessToken.requestURL { client with AdditionalHeaders := extra })
          (GetAccessToken.params { client with AdditionalHeaders := extra } redirectURI code) =
        PostForm.request http (GetAccessToken.requestURL client)
          (GetAccessToken.params client redirectURI code)) ∧
    ((∀ req,
        PostForm.request http (RefreshAccessToken.requestURL client)
          (RefreshAccessToken.params client refreshToken) = .ok req →
        req.Header = [(lit "Content-Type", [lit "application/x-www-form-urlencoded"])]) ∧
      PostForm.request http
          (RefreshAccessToken.requestURL { client with AdditionalHeaders := extra })
          (RefreshAccessToken.params { client with AdditionalHeaders := extra } refreshToken) =
        PostForm.request http (RefreshAccessToken.requestURL client)
          (RefreshAccessToken.params client refreshToken)) := by
  refine ⟨⟨fun req h => auth_request_header h, rfl⟩, ⟨fun req h => auth_request_header h, rfl⟩,
    ⟨fun req h => auth_request_header h, rfl⟩, ⟨fun req h => ?_, rfl⟩, ⟨fun req h => ?_, rfl⟩,
    ⟨fun req h => PostForm_request_header h, rfl⟩,
    ⟨fun req h => PostForm_request_header h, rfl⟩⟩
  · rw [json_request_header h]
  · rw [json_request_header h]

theorem request_headers_fixed_witness :
    sampleProfileRequest.Header = [(lit "Authorization", [lit "OAuth " ++ lit "abc"])] :=
  (request_headers_fixed refusedHTTP sampleClient [] (lit "abc") [] [] [] [] [] false 0 []).1.1
    sampleProfileRequest (by decide)

/-! ## Transport errors and decoding -/

/-- C8. For each of the five authenticated operations, once its request is
built: the operation hands that one request to the HTTP layer and nothing else
(the log grows by exactly that request, whatever the outcome), and if the HTTP
call fails with an error, the operation returns that same error. -/
theorem transport_error_propagated (http : HTTP) (client : FeedlyClient)
    (accessToken streamID userID : GoString) (unreadOnly : Bool) (newerThan : Int)
    (entryIds : List GoString) (log : Log) :
    (∀ req, GetUserProfile.request http client accessToken = some req →
      (∃ out, GetUserProfile http client accessToken log = some (out, log ++ [req])) ∧
      ∀ res err, http.Do log req = .fail res err →
        GetUserProfile http client accessToken log = some ((none, some err), log ++ [req])) ∧
    (∀ req, GetUserSubscriptions.request http client accessToken = some req →
      (∃ out, GetUserSubscriptions http client accessToken log = some (out, log ++ [req])) ∧
      ∀ res err, http.Do log req = .fail res err →
        GetUserSubscriptions http client accessToken log =
          some ((none, some err), log ++ [req])) ∧
    (∀ req,
      GetFeedContent.request http client accessToken streamID unreadOnly newerThan = some req →
      (∃ out, GetFeedContent http client accessToken streamID unreadOnly newerThan log =
        some (out, log ++ [req])) ∧
      ∀ res err, http.Do log req = .fail res err →
        GetFeedContent http client accessToken streamID unreadOnly newerThan log =
          some ((none, some err), log ++ [req])) ∧
    (∀ req, MarkArticleRead.request http client accessToken entryIds = some req →
      (∃ out, MarkArticleRead http client accessToken entryIds log =
        some (out, log ++ [req])) ∧
      ∀ res err, http.Do log req = .fail res err →
        MarkArticleRead http client accessToken entryIds log =
          some ((res, some err), log ++ [req])) ∧
    (∀ req, SaveForLater.request http client accessToken userID entryIds = some req →
      (∃ out, SaveForLater http client accessToken userID entryIds log =
        some (out, log ++ [req])) ∧
      ∀ res err, http.Do log req = .fail res err →
        SaveForLater http client accessToken userID entryIds log =
          some ((res, some err), log ++ [req])) := by
  refine ⟨?_, ?_, ?_, ?_, ?_⟩
  · intro req hreq
    unfold GetUserProfile
    rw [hreq]
    simp only [HTTP.send]
    constructor
    · cases http.Do log req <;> exact ⟨_, rfl⟩
    · intro res err h
      rw [h]
  · intro req hreq
    unfold GetUserSubscriptions
    rw [hreq]
    simp only [HTTP.send]
    constructor
    · cases http.Do log req <;> exact ⟨_, rfl⟩
    · intro res err h
      rw [h]
  · intro req hreq
    unfold GetFeedContent
    rw [hreq]
    simp only [HTTP.send]
    constructor
    · cases http.Do log req <;> exact ⟨_, rfl⟩
    · intro res err h
      rw [h]
  · intro req hreq
    unfold MarkArticleRead
    rw [hreq]
    simp only [HTTP.send]
    constructor
    · exact ⟨_, rfl⟩
    · intro res err h
      rw [h]
      rfl
  · intro req hreq
    unfold SaveForLater
    rw [hreq]
    simp only [HTTP.send]
    constructor
    · exact ⟨_, rfl⟩
    · intro res err h
      rw [h]
      rfl

theorem transport_error_propagated_witness :
    GetUserProfile.request refusedHTTP sampleClient (lit "abc") = some sampleProfileRequest ∧
    refusedHTTP.Do [] sampleProfileRequest = .fail none ⟨lit "connection refused"⟩ ∧
    GetUserProfile refusedHTTP sampleClient (lit "abc") [] =
      some ((none, some ⟨lit "connection refused"⟩), [] ++ [sampleProfileRequest]) :=
  ⟨by decide, rfl,
   ((transport_error_propagated refusedHTTP sampleClient (lit "abc") [] [] false 0 [] []).1
      sampleProfileRequest (by decide)).2 none ⟨lit "connection refused"⟩ rfl⟩

/-- C9. For each of the five decoding operations, once its request is built: if
the HTTP call succeeds, the operation returns a nil error together with whatever
the JSON decoder left in the result, for every response body and every outcome
of the decoder (a decoding error is not returned). -/
theorem decode_error_absorbed (http : HTTP) (client : FeedlyClient)
    (accessToken streamID redirectURI code refreshToken : GoString) (unreadOnly : Bool)
    (newerThan : Int) (log : Log) :
    (∀ req res,
      PostForm.request http (GetAccessToken.requestURL client)
        (GetAccessToken.params client redirectURI code) = .ok req →
      http.Do log req = .ok res →
      GetAccessToken http client redirectURI code log =
        (((http.decodeObject res.Body).result, none), log ++ [req])) ∧
    (∀ req res,
      PostForm.request http (RefreshAccessToken.requestURL client)
        (RefreshAccessToken.params client refreshToken) = .ok req →
      http.Do log req = .ok res →
      RefreshAccessToken http client refreshToken log =
        (((http.decodeObject res.Body).result, none), log ++ [req])) ∧
    (∀ req res, GetUserProfile.request http client accessToken = some req →
      http.Do log req = .ok res →
      GetUserProfile http client accessToken log =
        some (((http.decodeObject res.Body).result, none), log ++ [req])) ∧
    (∀ req res, GetUserSubscriptions.request http client accessToken = some req →
      http.Do log req = .ok res →
      GetUserSubscriptions http client accessToken log =
        some (((http.decodeObjects res.Body).result, none), log ++ [req])) ∧
    (∀ req res,
      GetFeedContent.request http client accessToken streamID unreadOnly newerThan = some req →
      http.Do log req = .ok res →
      GetFeedContent http client accessToken streamID unreadOnly newerThan log =
        some (((http.decodeObject res.Body).result, none), log ++ [req])) := by
  refine ⟨?_, ?_, ?_, ?_, ?_⟩
  · intro req res hreq hdo
    simp only [GetAccessToken, PostForm, hreq, HTTP.send, hdo]
  · intro req res hreq hdo
    simp only [RefreshAccessToken, PostForm, hreq, HTTP.send, hdo]
  · intro req res hreq hdo
    simp only [GetUserProfile, hreq, HTTP.send, hdo]
  · intro req res hreq hdo
    simp only [GetUserSubscriptions, hreq, HTTP.send, hdo]
  · intro req res hreq hdo
    simp only [GetFeedContent, hreq, HTTP.send, hdo]

theorem decode_error_absorbed_witness :
    GetUserProfile.request garbledHTTP sampleClient (lit "abc") = some sampleProfileRequest ∧
    garbledHTTP.Do [] sampleProfileRequest = .ok ⟨200, lit "<html>"⟩ ∧
    (garbledHTTP.decodeObject (lit "<html>")).err = some ⟨lit "invalid character"⟩ ∧
    GetUserProfile garbledHTTP sampleClient (lit "abc") [] =
      some (((garbledHTTP.decodeObject (lit "<html>")).result, none),
        [] ++ [sampleProfileRequest]) :=
  ⟨by decide, rfl, rfl,
   (decode_error_absorbed garbledHTTP sampleClient (lit "abc") [] [] [] [] false 0 []).2.2.1
     sampleProfileRequest ⟨200, lit "<html>"⟩ (by decide) rfl⟩

end Feedly
